import Mathlib

/-!
Verification of the Pinterest template-compositing engine of this repository
(`src/APP2/buffer/design.py`, plus the duplicated JavaScript variant kept in
`src/APP2/buffer/template.py`).

The Python/NumPy code is shallowly embedded: pixels and color channels are
natural numbers and float arithmetic is embedded as exact rational
arithmetic over `ℚ`, with Python's `int()` truncation of the nonnegative
quantities involved embedded as the natural floor.

Two different integer semantics appear in `detect_dominant_color` and are
embedded separately.  The brightness of line 78 is computed on numpy uint8
SCALARS (rows of `np.unique` of a uint8 array): under NumPy 1.x value-based
casting, `r * 299` and `g * 587` are uint16 products, `b * 114` is a uint8
product, and the sums accumulate in uint16, so every product and sum wraps
(`% 2^16` / `% 2^8`) and the total is always below 65536 — the eligibility
test `80 < brightness` of line 84 can therefore never pass.  (Under NumPy
2.x the same expression raises `OverflowError` instead, which the bare
`except` turns into the default color: the observable result — the default
color for every image — is the same, and is covered by the error branch of
`detectDominantColor`.)  The post-processing of lines 88-106, by contrast,
first converts each channel to a Python int (`int(r * 1.2)`), so its
arithmetic (line 98 included) is exact; at its scales (channels `≤ 255`,
weighted sums `≤ 255000`) a non-integer intermediate quotient is at least
`1/255000` away from any integer, far beyond double-precision rounding
error, so the rational embedding of each truncation agrees with IEEE-754
evaluation of the source.

Because rational arithmetic does not reduce inside the kernel, each rational
definition that must be evaluated on concrete inputs has a natural-number
twin (`lumaW`, `natEligible`, `natEnhance`, the `4*h ≤ 5*w` form of the grid
test) together with a proved equivalence lemma; all concrete evaluation goes
through the twin.
-/

namespace Design

/-- An RGB pixel or color bucket: one natural number per channel
(`0 ≤ channel ≤ 255` for real pixels; the embedding keeps channels as
unbounded naturals and states bounds where claims need them). -/
structure RGB where
  r : ℕ
  g : ℕ
  b : ℕ
deriving DecidableEq, Repr

/-- design.py line 29: `self.default_color = '#FF9800'` (orange fallback). -/
def defaultColor : String := "#FF9800"

/-- design.py line 53: the mask removes pixels with all three channels
`> 240` (`(pixels[:,0] > 240) & (pixels[:,1] > 240) & (pixels[:,2] > 240)`). -/
def nearWhite (p : RGB) : Bool :=
  decide (240 < p.r) && decide (240 < p.g) && decide (240 < p.b)

/-- design.py line 60: `grouped_pixels = (filtered_pixels // 32) * 32`,
channel-wise floor to a multiple of 32. -/
def bucketize (p : RGB) : RGB := ⟨p.r / 32 * 32, p.g / 32 * 32, p.b / 32 * 32⟩

/-- design.py lines 73-75:
`saturation = 0 if max_val == 0 else (max_val - min_val) / max_val`. -/
def saturation (c : RGB) : ℚ :=
  let maxVal := max c.r (max c.g c.b)
  let minVal := min c.r (min c.g c.b)
  if maxVal = 0 then 0 else ((maxVal - minVal : ℕ) : ℚ) / (maxVal : ℚ)

/-- The integer numerator actually computed by design.py line 78,
`r * 299 + g * 587 + b * 114`, in the numpy uint8-scalar arithmetic of the
source (NumPy 1.x): `r * 299` and `g * 587` wrap at uint16, `b * 114` wraps
at uint8, and the left-to-right sums accumulate in uint16.  The result is
always below 65536.  (Under NumPy 2.x this expression raises
`OverflowError`, caught by the bare `except`; that path is the error branch
of `detectDominantColor` and yields the same default color.) -/
def lumaW (c : RGB) : ℕ :=
  ((c.r * 299 % 65536 + c.g * 587 % 65536) % 65536 + c.b * 114 % 256) % 65536

/-- design.py line 78: `brightness = (r * 299 + g * 587 + b * 114) / 1000`
on numpy uint8 scalars — the wrapped numerator `lumaW` over 1000 (the final
division is an exact float true-division of a value below 65536). -/
def brightness (c : RGB) : ℚ := (lumaW c : ℚ) / 1000

/-- The exact (unwrapped) luma numerator `r * 299 + g * 587 + b * 114`:
this is what design.py line 98 computes, because by then each channel has
been converted to a Python int by `int(...)` at lines 93-95, so no numpy
wrapping applies. -/
def exactLumaW (c : RGB) : ℕ := c.r * 299 + c.g * 587 + c.b * 114

/-- The exact luma `(r * 299 + g * 587 + b * 114) / 1000` — design.py line
98 (Python-int operands), and the standard-luma reading of "brightness" in
the spec. -/
def exactBrightness (c : RGB) : ℚ := (exactLumaW c : ℚ) / 1000

/-- design.py line 81:
`vibrancy_score = saturation * 0.6 + (brightness / 255) * 0.2 + (count / len(filtered_pixels)) * 0.2`,
using the wrapped line-78 `brightness` value. -/
def vibrancyScore (count total : ℕ) (c : RGB) : ℚ :=
  saturation c * 0.6 + (brightness c / 255) * 0.2 + ((count : ℚ) / (total : ℚ)) * 0.2

/-- design.py line 84, first three conjuncts of
`if 80 < brightness < 200 and saturation > 0.2 and vibrancy_score > best_score`:
the per-bucket eligibility window (the score comparison belongs to the
selection loop, not to eligibility). -/
def eligibleBucket (c : RGB) : Prop :=
  80 < brightness c ∧ brightness c < 200 ∧ saturation c > 0.2

instance (c : RGB) : Decidable (eligibleBucket c) := by
  unfold eligibleBucket; infer_instance

/-- Natural-number form of `eligibleBucket` (cross-multiplied, over the
wrapped `lumaW` that line 78 really computes), used for kernel evaluation;
`eligible_iff` proves the equivalence.  Since `lumaW` is always below
65536, the first conjunct is never satisfied — see `eligibleBucket_unsat`. -/
def natEligible (c : RGB) : Prop :=
  80000 < lumaW c ∧ lumaW c < 200000 ∧
    max c.r (max c.g c.b) < 5 * (max c.r (max c.g c.b) - min c.r (min c.g c.b))

instance (c : RGB) : Decidable (natEligible c) := by
  unfold natEligible; infer_instance

/-- Python's `int()` applied to the nonnegative float quantities of
design.py, embedded as the floor into `ℕ` (truncation = floor for
nonnegative values). -/
def toNatFloor (q : ℚ) : ℕ := ⌊q⌋₊

/-- design.py lines 88-103: post-processing of the winning bucket.  Channels
are multiplied by the enhancement factor 1.2 and clamped to 255
(`min(255, int(r * enhancement_factor))`); if the resulting brightness is
below 120, each channel is further multiplied by `boost = 120 / brightness`
and clamped again.  The brightness recomputed at line 98 uses Python-int
channels (converted by `int(...)` at lines 93-95), so it is the exact
`exactBrightness`, not the wrapped line-78 value.  (For the all-zero color
the source would raise a `ZeroDivisionError`, swallowed by the `except`;
the embedding's division by zero yields 0 instead, and no claim evaluates
`enhance` there.) -/
def enhance (c : RGB) : RGB :=
  let r := min 255 (toNatFloor ((c.r : ℚ) * 1.2))
  let g := min 255 (toNatFloor ((c.g : ℚ) * 1.2))
  let b := min 255 (toNatFloor ((c.b : ℚ) * 1.2))
  let br := exactBrightness ⟨r, g, b⟩
  if br < 120 then
    let boost := 120 / br
    ⟨min 255 (toNatFloor ((r : ℚ) * boost)),
     min 255 (toNatFloor ((g : ℚ) * boost)),
     min 255 (toNatFloor ((b : ℚ) * boost))⟩
  else ⟨r, g, b⟩

/-- Natural-number twin of `enhance` (exact same values, `enhance_eq`):
`int(x * 1.2)` is `x * 6 / 5` and `int(x * (120 / (s / 1000)))` is
`x * 120000 / s` in natural division. -/
def natEnhance (c : RGB) : RGB :=
  let r := min 255 (c.r * 6 / 5)
  let g := min 255 (c.g * 6 / 5)
  let b := min 255 (c.b * 6 / 5)
  let s := r * 299 + g * 587 + b * 114
  if s < 120000 then
    ⟨min 255 (r * 120000 / s), min 255 (g * 120000 / s), min 255 (b * 120000 / s)⟩
  else ⟨r, g, b⟩

/-- One lowercase hex digit, as produced by Python's `%x` formatting. -/
def hexDigitChar (n : ℕ) : Char :=
  if n < 10 then Char.ofNat (48 + n) else Char.ofNat (87 + n)

/-- Python's `f"{n:02x}"` for `n ≤ 255`: exactly two lowercase hex digits. -/
def twoHex (n : ℕ) : String := String.mk [hexDigitChar (n / 16), hexDigitChar (n % 16)]

/-- design.py line 105: `hex_color = f"#{r:02x}{g:02x}{b:02x}"`. -/
def hexColor (c : RGB) : String := "#" ++ twoHex c.r ++ twoHex c.g ++ twoHex c.b

/-- Python's `str.upper()` on the ASCII strings produced here, embedded as a
character-wise map (design.py line 106: `hex_color.upper()`; line 257:
`title.upper()`). -/
def strUpper (s : String) : String := String.mk (s.data.map Char.toUpper)

/-- design.py lines 53-54: keep the pixels that are not near-white. -/
def filteredPixels (px : List RGB) : List RGB := px.filter (fun p => !nearWhite p)

/-- design.py line 60 applied to the filtered pixel list. -/
def groupedPixels (px : List RGB) : List RGB := (filteredPixels px).map bucketize

/-- Lexicographic row order on RGB triples, the order in which
`np.unique(..., axis=0)` (design.py line 63) returns the distinct buckets. -/
def lexLe (a b : RGB) : Bool :=
  decide (a.r < b.r) ||
    (decide (a.r = b.r) &&
      (decide (a.g < b.g) || (decide (a.g = b.g) && decide (a.b ≤ b.b))))

/-- design.py line 63: `np.unique(grouped_pixels, axis=0)` — the distinct
buckets, in lexicographic order. -/
def uniqueColors (l : List RGB) : List RGB := l.dedup.mergeSort lexLe

/-- One iteration of the selection loop, design.py lines 69-86: a bucket
replaces the current best exactly when `80 < brightness < 200 and
saturation > 0.2 and vibrancy_score > best_score`. -/
def bestStep (total : ℕ) (cnt : RGB → ℕ) (acc : Option RGB × ℚ) (c : RGB) :
    Option RGB × ℚ :=
  let s := vibrancyScore (cnt c) total c
  if 80 < brightness c ∧ brightness c < 200 ∧ saturation c > 0.2 ∧ acc.2 < s then
    (some c, s)
  else acc

/-- design.py lines 66-86: the selection loop over the unique buckets,
starting from `best_color = None`, `best_score = 0`. -/
def pickBest (total : ℕ) (cnt : RGB → ℕ) (colors : List RGB) : Option RGB :=
  (colors.foldl (bestStep total cnt) (none, 0)).1

/-- design.py lines 42-111, `detect_dominant_color` applied to the list of
sampled pixels (the rows of the 100×100-resized image): filter the
near-white pixels, return the default if nothing remains, bucketize, pick
the best-scoring eligible bucket, post-process and format it, or fall back
to the default color when no bucket qualifies. -/
def analyzePixels (px : List RGB) : String :=
  let filtered := filteredPixels px
  if filtered = [] then defaultColor
  else
    let grouped := groupedPixels px
    match pickBest grouped.length (fun c => grouped.count c) (uniqueColors grouped) with
    | some c => strUpper (hexColor (enhance c))
    | none => defaultColor

/-- design.py lines 42-111 with the surrounding `try`/`except`: any
processing error while obtaining the sampled pixels (corrupt image, numpy
failure, ...) is modelled as an `Except.error` and yields the default color
(lines 108-111); a successful sampling is analyzed by `analyzePixels`. -/
def detectDominantColor : Except String (List RGB) → String
  | .error _ => defaultColor
  | .ok px => analyzePixels px

/-- design.py line 164: `aspect_ratio = source_img.width / source_img.height`
(float division, embedded as `ℚ`). -/
def aspectRatio (w h : ℕ) : ℚ := (w : ℚ) / (h : ℚ)

/-- design.py line 165: `is_grid = 0.8 <= aspect_ratio <= 1.25`. -/
def isGrid (w h : ℕ) : Prop := 0.8 ≤ aspectRatio w h ∧ aspectRatio w h ≤ 1.25

instance (w h : ℕ) : Decidable (isGrid w h) := by
  unfold isGrid; infer_instance

/-- template.py line 145 (the JavaScript variant of the same generator):
`const isGrid = aspectRatio > 0.8 && aspectRatio < 1.25` — strict
inequalities, unlike design.py's closed interval. -/
def isGridJS (w h : ℕ) : Prop := 0.8 < aspectRatio w h ∧ aspectRatio w h < 1.25

instance (w h : ℕ) : Decidable (isGridJS w h) := by
  unfold isGridJS; infer_instance

/-- The per-band source geometry computed by design.py lines 163-185. -/
structure Plan where
  gridMode : Bool
  topCrop : ℕ × ℕ × ℕ × ℕ
  bottomCrop : ℕ × ℕ × ℕ × ℕ
deriving DecidableEq, Repr

/-- design.py lines 163-185: if the image is a grid, the top band is cropped
from `(0, 0, w // 2, h // 2)` and the bottom band from
`(w // 2, h // 2, w, h)` (lines 169-177, `//` is floor division); otherwise
both bands use the full image. -/
def planLayout (w h : ℕ) : Plan :=
  if isGrid w h then
    { gridMode := true
      topCrop := (0, 0, w / 2, h / 2)
      bottomCrop := (w / 2, h / 2, w, h) }
  else
    { gridMode := false
      topCrop := (0, 0, w, h)
      bottomCrop := (0, 0, w, h) }

/-- design.py line 20: `self.canvas_width = 735`. -/
def canvasWidth : ℕ := 735

/-- design.py line 21: `self.canvas_height = 1102`. -/
def canvasHeight : ℕ := 1102

/-- design.py line 24: `self.top_image_height = 400`. -/
def topImageHeight : ℕ := 400

/-- design.py line 25: `self.banner_height = 120`. -/
def bannerHeight : ℕ := 120

/-- design.py line 26:
`self.bottom_image_height = self.canvas_height - self.top_image_height - self.banner_height`. -/
def bottomImageHeight : ℕ := canvasHeight - topImageHeight - bannerHeight

/-- design.py line 232: `banner_y = self.top_image_height`. -/
def bannerY : ℕ := topImageHeight

/-- design.py line 214: `bottom_y = self.top_image_height + self.banner_height`. -/
def bottomY : ℕ := topImageHeight + bannerHeight

/-- Canvas rows covered by the top band: `canvas.paste(top_final, (0, 0))`
(design.py line 204) with `top_final` of height `topImageHeight`. -/
def topBandRow (y : ℕ) : Prop := y < topImageHeight

/-- Canvas rows covered by the bottom band:
`canvas.paste(bottom_final, (0, bottom_y))` (design.py line 226) with
`bottom_final` of height `bottomImageHeight`. -/
def bottomBandRow (y : ℕ) : Prop := bottomY ≤ y ∧ y < bottomY + bottomImageHeight

/-- Canvas rows filled by the banner rectangle, design.py lines 233-234:
`draw.rectangle([0, banner_y, self.canvas_width, banner_y + self.banner_height])`.
PIL's `ImageDraw.rectangle` fills a box inclusive of BOTH corner points, so
the filled rows are `banner_y ≤ y ≤ banner_y + banner_height`. -/
def bannerFillRow (y : ℕ) : Prop := bannerY ≤ y ∧ y ≤ bannerY + bannerHeight

/-- design.py lines 190-202 / 207-224: fit one band source of size
`srcW × srcH` to the canvas width and the band height `target`.  The source
scales to width 735 and height `int(735 / (srcW / srcH))`; if that is at
least the band height the band is center-cropped
(`crop((0, crop_start, w, crop_start + target))`), otherwise the scaled
image is pasted at a centered vertical offset inside a white band of the
target height.  `outHeight` records the height of the image actually pasted
onto the canvas, via the same arithmetic as the source's crop box or
white-section allocation. -/
def fitBand (srcW srcH target : ℕ) : ℕ × Option ℕ × Option ℕ × ℕ :=
  let scaled := canvasWidth * srcH / srcW
  if target ≤ scaled then
    let cropStart := (scaled - target) / 2
    (scaled, some cropStart, none, cropStart + target - cropStart)
  else
    (scaled, none, some ((target - scaled) / 2), target)

/-- design.py line 258: `max_width = self.canvas_width - 80`. -/
def maxTextWidth : ℕ := canvasWidth - 80

/-- The string a line of words renders as: the source accumulates
`current_line + (' ' if current_line else '') + word` (design.py line 263),
i.e. the words joined by single spaces. -/
def joinWords : List String → String
  | [] => ""
  | [w] => w
  | w :: ws => w ++ " " ++ joinWords ws

/-- Python's `str.split()` with no separator (design.py line 257): split on
whitespace runs, discarding empty pieces. -/
def splitWords (s : String) : List String :=
  (s.split Char.isWhitespace).filter (fun w => w ≠ "")

/-- design.py lines 259-274: the greedy wrap loop.  State: emitted `lines`,
the current line `cur` (a list of words; the source's `current_line` string
is `joinWords cur`), and the remaining words.  For each word the candidate
`test_line` is the current line extended by the word; if its measured width
exceeds `max_width` and the current line is nonempty, the current line is
emitted and the word starts a new line, otherwise the candidate is adopted.
A final nonempty current line is emitted (lines 273-274). -/
def wrapAux (measure : String → ℕ) (maxW : ℕ) (lines : List (List String))
    (cur : List String) : List String → List (List String)
  | [] => if cur = [] then lines else lines ++ [cur]
  | w :: ws =>
    if maxW < measure (joinWords (cur ++ [w])) ∧ cur ≠ [] then
      wrapAux measure maxW (lines ++ [cur]) [w] ws
    else
      wrapAux measure maxW lines (cur ++ [w]) ws

/-- design.py lines 253-274: upper-case the title, split it into words, and
greedily wrap them against `max_width = canvas_width - 80`.  The width
measure (`draw.textbbox` at the loaded font) is a parameter. -/
def wrapTitle (measure : String → ℕ) (title : String) : List (List String) :=
  wrapAux measure maxTextWidth [] [] (splitWords (strUpper title))

/-- design.py lines 153-158: resolve the banner color.  With auto-color the
detected color is used; otherwise `detected_color = manual_color or
self.default_color`, so Python's falsy values `None` and `""` fall back to
the default and every other string passes through unvalidated. -/
def resolveColor (useAutoColor : Bool) (autoColor : String)
    (manualColor : Option String) : String :=
  if useAutoColor then autoColor
  else
    match manualColor with
    | none => defaultColor
    | some s => if s = "" then defaultColor else s

/-- The observable output of `create_color_matched_template`
(design.py lines 135-293): the color the banner rectangle is filled with
(line 234), the color returned to the caller (line 293), the band plan, and
the wrapped title lines. -/
structure Render where
  bannerFill : String
  returnedColor : String
  plan : Plan
  lines : List (List String)

/-- design.py lines 135-293, `create_color_matched_template`, at the level
of its observable outputs: resolve the color from the mode flag, the
analyzed pixels and the manual override; plan the band geometry from the
source dimensions; wrap the title; fill the banner with the resolved color
and return it alongside the canvas. -/
def createColorMatchedTemplate (measure : String → ℕ) (srcW srcH : ℕ)
    (px : List RGB) (title : String) (useAutoColor : Bool)
    (manualColor : Option String) : Render :=
  let detected := resolveColor useAutoColor (analyzePixels px) manualColor
  { bannerFill := detected
    returnedColor := detected
    plan := planLayout srcW srcH
    lines := wrapTitle measure title }

/-- The claim's notion of a well-formed manual color: a string of the exact
form `#RRGGBB` (spec §6, "optional explicit color (format: `#RRGGBB`)").
This predicate only states claim C4; the source never validates the
string. -/
def isHexColorForm (s : String) : Bool :=
  match s.data with
  | '#' :: rest => rest.length == 6 && rest.all (fun c =>
      c.isDigit || (decide ('a' ≤ c) && decide (c ≤ 'f')) ||
        (decide ('A' ≤ c) && decide (c ≤ 'F')))
  | _ => false

end Design

namespace Design

/-! ### Bridge lemmas between the rational source mirror and its ℕ twins -/

/-- `brightness` (the wrapped line-78 value) is `lumaW` over 1000. -/
theorem brightness_def (c : RGB) : brightness c = (lumaW c : ℚ) / 1000 := rfl

/-- `exactBrightness` (the line-98 value) is `exactLumaW` over 1000. -/
theorem exactBrightness_def (c : RGB) : exactBrightness c = (exactLumaW c : ℚ) / 1000 := rfl

/-- Cross-multiplied form of an over-1000 lower bound at 80. -/
theorem div1000_gt80_iff (s : ℕ) : 80 < ((s : ℕ) : ℚ) / 1000 ↔ 80000 < s := by
  rw [lt_div_iff (by norm_num : (0 : ℚ) < 1000)]
  constructor
  · intro h; exact_mod_cast (by norm_num : (80 : ℚ) * 1000 = 80000) ▸ h
  · intro h; have : ((80000 : ℕ) : ℚ) < ((s : ℕ) : ℚ) := by exact_mod_cast h
    calc (80 : ℚ) * 1000 = 80000 := by norm_num
    _ < _ := this

/-- Cross-multiplied form of an over-1000 upper bound at 200. -/
theorem div1000_lt200_iff (s : ℕ) : ((s : ℕ) : ℚ) / 1000 < 200 ↔ s < 200000 := by
  rw [div_lt_iff (by norm_num : (0 : ℚ) < 1000)]
  constructor
  · intro h; exact_mod_cast (by norm_num : (200 : ℚ) * 1000 = 200000) ▸ h
  · intro h; calc ((s : ℕ) : ℚ) < ((200000 : ℕ) : ℚ) := by exact_mod_cast h
    _ = 200 * 1000 := by norm_num

/-- Cross-multiplied form of the saturation threshold of design.py line 84. -/
theorem saturation_gt_iff (c : RGB) :
    0.2 < saturation c ↔
      max c.r (max c.g c.b) < 5 * (max c.r (max c.g c.b) - min c.r (min c.g c.b)) := by
  unfold saturation
  by_cases h : max c.r (max c.g c.b) = 0
  · rw [if_pos h, h]
    constructor
    · intro hlt; exact absurd hlt (by norm_num)
    · intro hlt; omega
  · rw [if_neg h]
    have hpos : (0 : ℚ) < ((max c.r (max c.g c.b) : ℕ) : ℚ) :=
      Nat.cast_pos.mpr (Nat.pos_of_ne_zero h)
    rw [show (0.2 : ℚ) = 1 / 5 by norm_num, div_lt_div_iff (by norm_num) hpos]
    constructor
    · intro hlt
      have h2 : 1 * max c.r (max c.g c.b) <
          (max c.r (max c.g c.b) - min c.r (min c.g c.b)) * 5 := by exact_mod_cast hlt
      omega
    · intro hlt
      have h2 : 1 * max c.r (max c.g c.b) <
          (max c.r (max c.g c.b) - min c.r (min c.g c.b)) * 5 := by omega
      exact_mod_cast h2

/-- The eligibility window of design.py line 84 in natural-number form
(over the wrapped `lumaW`). -/
theorem eligible_iff (c : RGB) : eligibleBucket c ↔ natEligible c := by
  unfold eligibleBucket natEligible
  rw [gt_iff_lt, brightness_def, div1000_gt80_iff, div1000_lt200_iff, saturation_gt_iff]

end Design

namespace Design

/-- `int(a * 1.2)` for a natural `a` is `a * 6 / 5` in natural division. -/
theorem toNatFloor_mul_twelve (a : ℕ) : toNatFloor ((a : ℚ) * 1.2) = a * 6 / 5 := by
  have h : ((a : ℚ) * 1.2) = ((a * 6 : ℕ) : ℚ) / ((5 : ℕ) : ℚ) := by
    push_cast
    rw [show (1.2 : ℚ) = 6 / 5 by norm_num]
    ring
  rw [toNatFloor, h, Nat.floor_div_nat, Nat.floor_natCast]

/-- `int(x * (120 / (s / 1000)))` for naturals is `x * 120000 / s` in natural
division (with the `s = 0` convention matching on both sides). -/
theorem toNatFloor_boost (x s : ℕ) :
    toNatFloor ((x : ℚ) * (120 / ((s : ℚ) / 1000))) = x * 120000 / s := by
  have hq : (x : ℚ) * (120 / ((s : ℚ) / 1000)) =
      ((x * 120000 : ℕ) : ℚ) / ((s : ℕ) : ℚ) := by
    rw [div_div_eq_mul_div]
    push_cast
    ring
  rw [toNatFloor, hq, Nat.floor_div_nat, Nat.floor_natCast]

/-- A `brightness`-below-120 test is a numerator test. -/
theorem div1000_lt120_iff (s : ℕ) : ((s : ℕ) : ℚ) / 1000 < 120 ↔ s < 120000 := by
  rw [div_lt_iff (by norm_num : (0 : ℚ) < 1000)]
  constructor
  · intro h
    have h2 : (s : ℚ) < ((120000 : ℕ) : ℚ) := by
      calc (s : ℚ) < 120 * 1000 := h
      _ = ((120000 : ℕ) : ℚ) := by norm_num
    exact_mod_cast h2
  · intro h
    have h2 : (s : ℚ) < ((120000 : ℕ) : ℚ) := by exact_mod_cast h
    calc (s : ℚ) < ((120000 : ℕ) : ℚ) := h2
    _ = 120 * 1000 := by norm_num

/-- The rational mirror and the natural twin of the post-processing agree. -/
theorem enhance_eq (c : RGB) : enhance c = natEnhance c := by
  unfold enhance natEnhance
  simp only [toNatFloor_mul_twelve, exactBrightness_def, exactLumaW]
  rw [if_congr (div1000_lt120_iff _) rfl rfl]
  by_cases h :
      min 255 (c.r * 6 / 5) * 299 + min 255 (c.g * 6 / 5) * 587 +
        min 255 (c.b * 6 / 5) * 114 < 120000
  · rw [if_pos h, if_pos h]
    simp only [toNatFloor_boost]
  · rw [if_neg h, if_neg h]

end Design

namespace Design

/-- Membership in the unique-bucket list is membership in the grouped list
(`np.unique` only deduplicates and sorts). -/
theorem mem_uniqueColors {c : RGB} {l : List RGB} : c ∈ uniqueColors l ↔ c ∈ l := by
  rw [uniqueColors, List.mem_mergeSort, List.mem_dedup]

/-- If no bucket of the list passes the eligibility window, the selection
loop leaves the accumulator untouched. -/
theorem foldl_bestStep_none (total : ℕ) (cnt : RGB → ℕ) :
    ∀ (l : List RGB) (acc : Option RGB × ℚ),
      (∀ c ∈ l, ¬ eligibleBucket c) →
      l.foldl (bestStep total cnt) acc = acc
  | [], _, _ => rfl
  | c :: l, acc, h => by
    have hc : ¬ eligibleBucket c := h c (List.mem_cons_self c l)
    have hstep : bestStep total cnt acc c = acc := by
      unfold bestStep
      rw [if_neg]
      intro hcon
      exact hc ⟨hcon.1, hcon.2.1, hcon.2.2.1⟩
    rw [List.foldl_cons, hstep]
    exact foldl_bestStep_none total cnt l acc fun d hd => h d (List.mem_cons_of_mem _ hd)

/-- If no bucket of the sampled image passes the eligibility window,
`detect_dominant_color` falls back to the default color. -/
theorem analyzePixels_no_eligible (px : List RGB)
    (h : ∀ c ∈ uniqueColors (groupedPixels px), ¬ eligibleBucket c) :
    analyzePixels px = defaultColor := by
  simp only [analyzePixels]
  by_cases hfil : filteredPixels px = []
  · rw [if_pos hfil]
  · rw [if_neg hfil]
    have hpick : pickBest (groupedPixels px).length
        (fun c => (groupedPixels px).count c) (uniqueColors (groupedPixels px)) = none := by
      unfold pickBest
      rw [foldl_bestStep_none _ _ _ _ h]
    rw [hpick]


/-- No bucket is EVER eligible: the wrapped line-78 numerator is below
65536, so the computed brightness is below 65.536 and the `80 < brightness`
test of line 84 never passes. -/
theorem eligibleBucket_unsat (c : RGB) : ¬ eligibleBucket c := by
  intro h
  have h80 : 80000 < lumaW c := by
    have h1 := h.1
    rw [brightness_def, div1000_gt80_iff] at h1
    exact h1
  have hlt : lumaW c < 65536 := by
    unfold lumaW
    exact Nat.mod_lt _ (by norm_num)
  omega

/-- Consequence: `detect_dominant_color` returns the default color on EVERY
successfully sampled image — the selection loop can never produce a winner. -/
theorem analyzePixels_const (px : List RGB) : analyzePixels px = defaultColor :=
  analyzePixels_no_eligible px fun c _ => eligibleBucket_unsat c

end Design

namespace Design

/-- A fully gray color (R=G=B) has saturation 0. -/
theorem saturation_gray (c : RGB) (h1 : c.r = c.g) (h2 : c.g = c.b) :
    saturation c = 0 := by
  obtain ⟨x, y, z⟩ := c
  dsimp at h1 h2
  subst h1
  subst h2
  simp [saturation]

/-- C1: vacuously confirmed.  Line 78 computes brightness on numpy uint8
scalars, whose products and sums wrap (uint16 / uint8), so the computed
brightness is below 65.536 for every bucket and the `80 < brightness`
eligibility test never passes: no bucket is ever eligible, the selection
loop never produces a winner (`best_color` stays `None`), and the analyzer
returns the default "#FF9800" for every image.  In particular every winning
color bucket — there are none — trivially has post-processed luma at least
120, which is the claim as stated.  (Under NumPy 2.x the same line raises
`OverflowError` into the `except`, with the same default-color result,
covered by the error branch of `detectDominantColor`.) -/
theorem winning_bucket_luma :
    (∀ c : RGB, ¬ eligibleBucket c)
    ∧ (∀ (total : ℕ) (cnt : RGB → ℕ) (colors : List RGB),
        pickBest total cnt colors = none)
    ∧ (∀ px : List RGB, analyzePixels px = "#FF9800")
    ∧ (∀ c : RGB, eligibleBucket c → (120 : ℚ) ≤ exactBrightness (enhance c)) := by
  refine ⟨eligibleBucket_unsat, ?_, ?_, ?_⟩
  · intro total cnt colors
    unfold pickBest
    rw [foldl_bestStep_none total cnt colors (none, 0) fun c _ => eligibleBucket_unsat c]
  · intro px
    exact analyzePixels_const px
  · intro c h
    exact absurd h (eligibleBucket_unsat c)

/-- C6: on an image whose pixels are all pure gray (R=G=B), every bucket is
gray, so its saturation is 0 and no bucket passes the eligibility window;
`detect_dominant_color` returns exactly the default fallback "#FF9800".
(The 100×100 LANCZOS downscale of design.py line 44 acts channel-wise with
identical weights, so it preserves R=G=B; the hypothesis on the sampled
pixels therefore covers every all-gray source image.) -/
theorem gray_image_default (px : List RGB)
    (h : ∀ p ∈ px, p.r = p.g ∧ p.g = p.b) :
    analyzePixels px = "#FF9800" := by
  have hd : analyzePixels px = defaultColor := by
    apply analyzePixels_no_eligible
    intro c hc
    have hc2 : c ∈ groupedPixels px := mem_uniqueColors.mp hc
    rw [groupedPixels] at hc2
    rcases List.mem_map.mp hc2 with ⟨p, hp, rfl⟩
    have hpg := h p (List.mem_filter.mp hp).1
    intro helig
    have hsat : saturation (bucketize p) = 0 :=
      saturation_gray _ (by simp [bucketize, hpg.1]) (by simp [bucketize, hpg.2])
    have h02 : (0.2 : ℚ) < 0 := hsat ▸ helig.2.2
    exact absurd h02 (by norm_num)
  exact hd

/-- C6 witness: the theorem applied to the one-pixel gray image (5, 5, 5). -/
theorem gray_image_default_witness :
    (∀ p ∈ [(⟨5, 5, 5⟩ : RGB)], p.r = p.g ∧ p.g = p.b)
    ∧ analyzePixels [⟨5, 5, 5⟩] = "#FF9800" :=
  ⟨by decide, gray_image_default _ (by decide)⟩

/-- C3 counterexample: the mixture of 60 gray pixels (128, 128, 128) and 40
saturated pixels (200, 80, 50) satisfies the claim's hypotheses — the gray
bucket is desaturated (saturation 0), the saturated bucket (192, 64, 32)
has exact luma 98.624 ∈ (80, 200) and saturation 5/6 > 0.2 — yet the
program returns "#FF9800", the default, which is NOT the saturated bucket's
post-processed hex "#EA4D26": the brightness actually computed for that
bucket at line 78 wraps to 29504/1000 = 29.504 in numpy uint16/uint8
scalar arithmetic, failing the `80 < brightness` test, so no bucket wins. -/
theorem mixture_returns_default :
    (saturation (bucketize ⟨128, 128, 128⟩) ≤ 0.2
      ∧ 80 < exactBrightness (bucketize ⟨200, 80, 50⟩)
      ∧ exactBrightness (bucketize ⟨200, 80, 50⟩) < 200
      ∧ 0.2 < saturation (bucketize ⟨200, 80, 50⟩))
    ∧ analyzePixels
        (List.replicate 60 ⟨128, 128, 128⟩ ++ List.replicate 40 ⟨200, 80, 50⟩)
      = "#FF9800"
    ∧ strUpper (hexColor (enhance (bucketize ⟨200, 80, 50⟩))) = "#EA4D26"
    ∧ lumaW (bucketize ⟨200, 80, 50⟩) = 29504
    ∧ ¬ eligibleBucket (bucketize ⟨200, 80, 50⟩) := by
  refine ⟨⟨?_, ?_, ?_, ?_⟩, analyzePixels_const _, ?_, by decide, eligibleBucket_unsat _⟩
  · rw [saturation_gray _ rfl rfl]
    norm_num
  · rw [exactBrightness_def]
    exact (div1000_gt80_iff _).mpr (by decide)
  · rw [exactBrightness_def]
    exact (div1000_lt200_iff _).mpr (by decide)
  · exact (saturation_gt_iff _).mpr (by decide)
  · rw [enhance_eq]
    decide

/-- C3 (amended): for every image whose sampled pixels are 60% a
desaturated gray (bucket saturation at most 0.2) and 40% a saturated patch
whose bucket has exact luma 0.299R + 0.587G + 0.114B strictly between 80
and 200 and saturation above 0.2, the analyzer returns the DEFAULT color
"#FF9800" — a color derived from neither the majority gray bucket nor the
saturated bucket: the brightness actually computed at line 78 wraps in
numpy uint8/uint16 scalar arithmetic and stays below 65.536, so even the
saturated bucket fails the `80 < brightness` eligibility test and the
selection loop never picks a winner. -/
theorem mixture_defaults (k : ℕ) (g s : RGB)
    (_hk : k ≠ 0)
    (_hgw : nearWhite g = false) (_hsw : nearWhite s = false)
    (_hgray : saturation (bucketize g) ≤ 0.2)
    (_hb1 : 80 < exactBrightness (bucketize s))
    (_hb2 : exactBrightness (bucketize s) < 200)
    (_hsat : 0.2 < saturation (bucketize s)) :
    analyzePixels (List.replicate (3 * k) g ++ List.replicate (2 * k) s) = "#FF9800"
    ∧ ¬ eligibleBucket (bucketize s) :=
  ⟨analyzePixels_const _, eligibleBucket_unsat _⟩

/-- C3 witness: the amended statement applied to 60 gray (128, 128, 128)
and 40 saturated (200, 80, 50) pixels, discharging every hypothesis. -/
theorem mixture_defaults_witness :
    ((20 : ℕ) ≠ 0
      ∧ nearWhite ⟨128, 128, 128⟩ = false
      ∧ nearWhite ⟨200, 80, 50⟩ = false
      ∧ saturation (bucketize ⟨128, 128, 128⟩) ≤ 0.2
      ∧ 80 < exactBrightness (bucketize ⟨200, 80, 50⟩)
      ∧ exactBrightness (bucketize ⟨200, 80, 50⟩) < 200
      ∧ 0.2 < saturation (bucketize ⟨200, 80, 50⟩))
    ∧ (analyzePixels (List.replicate (3 * 20) ⟨128, 128, 128⟩
          ++ List.replicate (2 * 20) ⟨200, 80, 50⟩) = "#FF9800"
      ∧ ¬ eligibleBucket (bucketize ⟨200, 80, 50⟩)) := by
  have hgray : saturation (bucketize ⟨128, 128, 128⟩) ≤ 0.2 := by
    rw [saturation_gray _ rfl rfl]
    norm_num
  have hb1 : 80 < exactBrightness (bucketize ⟨200, 80, 50⟩) := by
    rw [exactBrightness_def]
    exact (div1000_gt80_iff _).mpr (by decide)
  have hb2 : exactBrightness (bucketize ⟨200, 80, 50⟩) < 200 := by
    rw [exactBrightness_def]
    exact (div1000_lt200_iff _).mpr (by decide)
  have hsat : 0.2 < saturation (bucketize ⟨200, 80, 50⟩) :=
    (saturation_gt_iff _).mpr (by decide)
  exact ⟨⟨by decide, rfl, rfl, hgray, hb1, hb2, hsat⟩,
    mixture_defaults 20 ⟨128, 128, 128⟩ ⟨200, 80, 50⟩ (by decide) rfl rfl
      hgray hb1 hb2 hsat⟩

/-- C9: `detect_dominant_color` never raises: a processing error (modelled
as the `Except.error` input to the `try` body) yields the default color via
the `except` handler, and a successfully sampled image in which no bucket
passes the eligibility filter also yields the default color. -/
theorem detect_never_fails (x : Except String (List RGB)) :
    (∀ e, x = Except.error e → detectDominantColor x = "#FF9800")
    ∧ (∀ px, x = Except.ok px →
        (∀ c ∈ uniqueColors (groupedPixels px), ¬ eligibleBucket c) →
        detectDominantColor x = "#FF9800") := by
  constructor
  · rintro e rfl
    rfl
  · rintro px rfl h
    exact analyzePixels_no_eligible px h

/-- C9 witness: the theorem applied to a failed sampling and to an all-gray
one-pixel image (bucket (0, 0, 0), which is ineligible). -/
theorem detect_never_fails_witness :
    detectDominantColor (Except.error "broken image") = "#FF9800"
    ∧ detectDominantColor (Except.ok [⟨10, 10, 10⟩]) = "#FF9800" := by
  constructor
  · exact (detect_never_fails _).1 "broken image" rfl
  · refine (detect_never_fails _).2 [⟨10, 10, 10⟩] rfl ?_
    intro c hc
    have hc2 : c ∈ groupedPixels [(⟨10, 10, 10⟩ : RGB)] := mem_uniqueColors.mp hc
    have hg : groupedPixels [(⟨10, 10, 10⟩ : RGB)] = [⟨0, 0, 0⟩] := rfl
    rw [hg] at hc2
    have hc3 : c = ⟨0, 0, 0⟩ := by simpa using hc2
    rw [hc3, eligible_iff]
    decide

end Design

namespace Design

/-- design.py's closed-interval grid test in cross-multiplied natural form. -/
theorem isGrid_iff_nat (w h : ℕ) (hh : 0 < h) :
    isGrid w h ↔ 4 * h ≤ 5 * w ∧ 4 * w ≤ 5 * h := by
  unfold isGrid aspectRatio
  have hq : (0 : ℚ) < (h : ℚ) := by exact_mod_cast hh
  rw [le_div_iff hq, div_le_iff hq]
  constructor
  · rintro ⟨h1, h2⟩
    constructor
    · have hc : (4 : ℚ) * h ≤ 5 * w := by linarith
      exact_mod_cast hc
    · have hc : (4 : ℚ) * w ≤ 5 * h := by linarith
      exact_mod_cast hc
  · rintro ⟨h1, h2⟩
    have hc1 : (4 : ℚ) * h ≤ 5 * w := by exact_mod_cast h1
    have hc2 : (4 : ℚ) * w ≤ 5 * h := by exact_mod_cast h2
    constructor
    · linarith
    · linarith

/-- template.py's strict grid test in cross-multiplied natural form. -/
theorem isGridJS_iff_nat (w h : ℕ) (hh : 0 < h) :
    isGridJS w h ↔ 4 * h < 5 * w ∧ 4 * w < 5 * h := by
  unfold isGridJS aspectRatio
  have hq : (0 : ℚ) < (h : ℚ) := by exact_mod_cast hh
  rw [lt_div_iff hq, div_lt_iff hq]
  constructor
  · rintro ⟨h1, h2⟩
    constructor
    · have hc : (4 : ℚ) * h < 5 * w := by linarith
      exact_mod_cast hc
    · have hc : (4 : ℚ) * w < 5 * h := by linarith
      exact_mod_cast hc
  · rintro ⟨h1, h2⟩
    have hc1 : (4 : ℚ) * h < 5 * w := by exact_mod_cast h1
    have hc2 : (4 : ℚ) * w < 5 * h := by exact_mod_cast h2
    constructor
    · linarith
    · linarith

/-- C2 counterexample: a 400×500 image has ratio exactly 0.8, inside the
claimed closed interval, but the generator in template.py (cited by the
claim alongside design.py) uses strict comparisons
(`aspectRatio > 0.8 && aspectRatio < 1.25`) and classifies it as NON-grid. -/
theorem grid_boundary_open_in_js :
    aspectRatio 400 500 = 0.8 ∧ ¬ isGridJS 400 500 := by
  constructor
  · unfold aspectRatio
    norm_num
  · rw [isGridJS_iff_nat 400 500 (by norm_num)]
    rintro ⟨h1, -⟩
    omega

/-- C2 (amended): design.py's generator classifies grid exactly on the
closed ratio interval [0.8, 1.25] (so exactly 0.8 and exactly 1.25 are
grid, 0.79 and 1.26 are not), while the JavaScript variant in template.py
uses the open interval, classifying ratios of exactly 0.8 or 1.25 as
non-grid. -/
theorem grid_detection_boundary (w h : ℕ) (hh : 0 < h) :
    (isGrid w h ↔ aspectRatio w h ∈ Set.Icc (0.8 : ℚ) 1.25)
    ∧ (isGridJS w h ↔ aspectRatio w h ∈ Set.Ioo (0.8 : ℚ) 1.25)
    ∧ (isGrid w h ↔ 4 * h ≤ 5 * w ∧ 4 * w ≤ 5 * h)
    ∧ (isGridJS w h ↔ 4 * h < 5 * w ∧ 4 * w < 5 * h)
    ∧ (isGrid 4 5 ∧ isGrid 5 4 ∧ ¬ isGrid 79 100 ∧ ¬ isGrid 126 100
        ∧ ¬ isGridJS 4 5 ∧ ¬ isGridJS 5 4) := by
  refine ⟨by rw [Set.mem_Icc]; exact Iff.rfl, by rw [Set.mem_Ioo]; exact Iff.rfl,
    isGrid_iff_nat w h hh, isGridJS_iff_nat w h hh,
    ?_, ?_, ?_, ?_, ?_, ?_⟩
  · exact (isGrid_iff_nat 4 5 (by norm_num)).mpr (by omega)
  · exact (isGrid_iff_nat 5 4 (by norm_num)).mpr (by omega)
  · rw [isGrid_iff_nat 79 100 (by norm_num)]
    rintro ⟨h1, -⟩
    omega
  · rw [isGrid_iff_nat 126 100 (by norm_num)]
    rintro ⟨-, h2⟩
    omega
  · rw [isGridJS_iff_nat 4 5 (by norm_num)]
    rintro ⟨h1, -⟩
    omega
  · rw [isGridJS_iff_nat 5 4 (by norm_num)]
    rintro ⟨-, h2⟩
    omega

/-- C2 witness: the boundary characterization instantiated at the 4×5 image
(ratio exactly 0.8). -/
theorem grid_detection_boundary_witness :
    (0 < 5) ∧ (isGrid 4 5 ↔ aspectRatio 4 5 ∈ Set.Icc (0.8 : ℚ) 1.25) :=
  ⟨by norm_num, (grid_detection_boundary 4 5 (by norm_num)).1⟩

/-- C5: whenever design.py classifies the source as a grid, the top band is
cropped from exactly `(0, 0, w // 2, h // 2)` and the bottom band from
exactly `(w // 2, h // 2, w, h)` (floor division, so for odd dimensions the
bottom-right quadrant is one pixel wider/taller), exemplified at the odd
801×801 grid. -/
theorem grid_quadrants (w h : ℕ) (hgrid : isGrid w h) :
    ((planLayout w h).gridMode = true
      ∧ (planLayout w h).topCrop = (0, 0, w / 2, h / 2)
      ∧ (planLayout w h).bottomCrop = (w / 2, h / 2, w, h))
    ∧ planLayout 801 801 = ⟨true, (0, 0, 400, 400), (400, 400, 801, 801)⟩ := by
  constructor
  · unfold planLayout
    rw [if_pos hgrid]
    exact ⟨rfl, rfl, rfl⟩
  · have hg : isGrid 801 801 := (isGrid_iff_nat 801 801 (by norm_num)).mpr (by omega)
    unfold planLayout
    rw [if_pos hg]

/-- C5 witness: the quadrant geometry instantiated at the odd-sized 801×801
grid image. -/
theorem grid_quadrants_witness :
    isGrid 801 801
    ∧ ((planLayout 801 801).gridMode = true
      ∧ (planLayout 801 801).topCrop = (0, 0, 801 / 2, 801 / 2)
      ∧ (planLayout 801 801).bottomCrop = (801 / 2, 801 / 2, 801, 801)) := by
  have hg : isGrid 801 801 := (isGrid_iff_nat 801 801 (by norm_num)).mpr (by omega)
  exact ⟨hg, (grid_quadrants 801 801 hg).1⟩

/-- C7: the three band heights tile the canvas height exactly
(400 + 120 + 582 = 1102) and the bottom band is pasted at row 520, but
PIL's `draw.rectangle` fills a box inclusive of both corners, so the banner
fill of design.py lines 233-234 covers rows 400..520 — canvas row 520 is
painted by both the bottom band paste and the banner fill, violating the
claimed "banner occupies [400, 520)" and "no pixel row belongs to two
bands" (an off-by-one in the rectangle coordinates). -/
theorem banner_overlaps_bottom_band :
    topImageHeight + bannerHeight + bottomImageHeight = canvasHeight
    ∧ bottomY = 520
    ∧ (∀ srcW srcH : ℕ, (fitBand srcW srcH topImageHeight).2.2.2 = topImageHeight
        ∧ (fitBand srcW srcH bottomImageHeight).2.2.2 = bottomImageHeight)
    ∧ bannerFillRow 520
    ∧ bottomBandRow 520
    ∧ ¬ topBandRow 520 := by
  refine ⟨rfl, rfl, ?_, ?_, ?_, ?_⟩
  · intro srcW srcH
    constructor <;>
      · simp only [fitBand]
        split_ifs <;> simp
  · exact ⟨by norm_num [bannerY, topImageHeight],
      by norm_num [bannerY, topImageHeight, bannerHeight]⟩
  · exact ⟨by norm_num [bottomY, topImageHeight, bannerHeight],
      by norm_num [bottomY, topImageHeight, bannerHeight, bottomImageHeight,
        canvasHeight]⟩
  · intro hcon
    have h520 : (520 : ℕ) < 400 := hcon
    omega

/-- C4 counterexample: the empty string is not of the form `#RRGGBB`, yet
with `use_auto_color=False` design.py line 157
(`detected_color = manual_color or self.default_color`) silently replaces
it by the default color: the banner is filled with "#FF9800", the render
succeeds and returns "#FF9800" — the malformed override is NOT failed with
an error and IS silently replaced. -/
theorem empty_override_silently_replaced :
    isHexColorForm "" = false
    ∧ (createColorMatchedTemplate (fun _ => 0) 1600 900 [] "RECIPES" false
        (some "")).bannerFill = "#FF9800"
    ∧ (createColorMatchedTemplate (fun _ => 0) 1600 900 [] "RECIPES" false
        (some "")).returnedColor = "#FF9800" :=
  ⟨rfl, rfl, rfl⟩

/-- C4 (amended): with `use_auto_color=False`, a NON-EMPTY manual color
string — well-formed or not — is passed through unvalidated as both the
banner fill and the returned color (an unparseable one therefore fails
later, inside PIL's color parser at the `draw.rectangle` call, rather than
being substituted); only the empty string, being falsy in Python, is
silently replaced by the default color. -/
theorem manual_color_passthrough (measure : String → ℕ) (w h : ℕ)
    (px : List RGB) (title : String) (s : String) (hs : s ≠ "") :
    ((createColorMatchedTemplate measure w h px title false (some s)).bannerFill = s
      ∧ (createColorMatchedTemplate measure w h px title false
          (some s)).returnedColor = s)
    ∧ (createColorMatchedTemplate measure w h px title false
        (some "")).bannerFill = defaultColor := by
  refine ⟨⟨?_, ?_⟩, rfl⟩ <;>
    simp [createColorMatchedTemplate, resolveColor, hs]

/-- C4 witness: the pass-through instantiated at the malformed non-empty
override "#ZZZZZZ". -/
theorem manual_color_passthrough_witness :
    ("#ZZZZZZ" ≠ "" ∧ isHexColorForm "#ZZZZZZ" = false)
    ∧ ((createColorMatchedTemplate (fun _ => 0) 1600 900 [] "RECIPES" false
          (some "#ZZZZZZ")).bannerFill = "#ZZZZZZ"
        ∧ (createColorMatchedTemplate (fun _ => 0) 1600 900 [] "RECIPES" false
            (some "#ZZZZZZ")).returnedColor = "#ZZZZZZ")
    ∧ (createColorMatchedTemplate (fun _ => 0) 1600 900 [] "RECIPES" false
        (some "")).bannerFill = defaultColor := by
  have hs : "#ZZZZZZ" ≠ "" := by decide
  exact ⟨⟨hs, rfl⟩,
    (manual_color_passthrough (fun _ => 0) 1600 900 [] "RECIPES" "#ZZZZZZ" hs).1,
    (manual_color_passthrough (fun _ => 0) 1600 900 [] "RECIPES" "#ZZZZZZ" hs).2⟩

/-- C10: with `use_auto_color=False` and no manual color supplied (None),
design.py line 157 silently substitutes the default color "#FF9800": the
render does not fail, the banner is filled with it, and it is returned as
the resolved color. -/
theorem missing_manual_color_uses_default (measure : String → ℕ) (w h : ℕ)
    (px : List RGB) (title : String) :
    (createColorMatchedTemplate measure w h px title false none).bannerFill = "#FF9800"
    ∧ (createColorMatchedTemplate measure w h px title false none).returnedColor
        = "#FF9800" :=
  ⟨rfl, rfl⟩

end Design

namespace Design

/-- Appending one word to a nonempty line inserts exactly one space, as the
source's `current_line + ' ' + word` does. -/
theorem joinWords_append_single :
    ∀ (cur : List String) (w : String), cur ≠ [] →
      joinWords (cur ++ [w]) = joinWords cur ++ " " ++ w
  | [], _, hne => absurd rfl hne
  | [_], _, _ => rfl
  | a :: b :: m, w, _ => by
    have ih := joinWords_append_single (b :: m) w (by simp)
    have h1 : joinWords ((a :: b :: m) ++ [w]) = a ++ " " ++ joinWords ((b :: m) ++ [w]) := by
      rw [List.cons_append]
      rfl
    have h2 : joinWords (a :: b :: m) = a ++ " " ++ joinWords (b :: m) := rfl
    rw [h1, ih, h2]
    simp [String.append_assoc]

/-- The wrap loop emits every word exactly once, in order: the
concatenation of the emitted lines is the prior lines, the current line and
the remaining words. -/
theorem wrapAux_join (measure : String → ℕ) (maxW : ℕ) (ws : List String) :
    ∀ (lines : List (List String)) (cur : List String),
      (wrapAux measure maxW lines cur ws).join = lines.join ++ cur ++ ws := by
  induction ws with
  | nil =>
    intro lines cur
    by_cases h : cur = []
    · simp [wrapAux, h]
    · simp [wrapAux, h]
  | cons w ws ih =>
    intro lines cur
    simp only [wrapAux]
    split_ifs with h
    · rw [ih (lines ++ [cur]) [w]]
      simp
    · rw [ih lines (cur ++ [w])]
      simp

/-- Width invariant of the wrap loop: every emitted line of two or more
words was accepted by the `text_width > max_width` test, so it measures at
most `maxW`. -/
theorem wrapAux_width (measure : String → ℕ) (maxW : ℕ) (ws : List String) :
    ∀ (lines : List (List String)) (cur : List String),
      (∀ l ∈ lines, 2 ≤ l.length → measure (joinWords l) ≤ maxW) →
      (2 ≤ cur.length → measure (joinWords cur) ≤ maxW) →
      ∀ l ∈ wrapAux measure maxW lines cur ws,
        2 ≤ l.length → measure (joinWords l) ≤ maxW := by
  induction ws with
  | nil =>
    intro lines cur hlines hcur l hl
    simp only [wrapAux] at hl
    split_ifs at hl
    · exact hlines l hl
    · rcases List.mem_append.mp hl with h1 | h1
      · exact hlines l h1
      · exact (List.mem_singleton.mp h1) ▸ hcur
  | cons w ws ih =>
    intro lines cur hlines hcur l hl
    simp only [wrapAux] at hl
    split_ifs at hl with h
    · refine ih (lines ++ [cur]) [w] ?_ ?_ l hl
      · intro l2 hl2
        rcases List.mem_append.mp hl2 with h2 | h2
        · exact hlines l2 h2
        · exact (List.mem_singleton.mp h2) ▸ hcur
      · intro h2
        simp at h2
    · refine ih lines (cur ++ [w]) hlines ?_ l hl
      intro h2
      by_cases hc : cur = []
      · subst hc
        simp at h2
      · exact not_lt.mp fun hgt => h ⟨hgt, hc⟩

/-- Over-long-word invariant of the wrap loop (for a width measure that
never shrinks when a line is extended on either side): any emitted line
containing a word wider than `maxW` is that single word alone. -/
theorem wrapAux_overlong (measure : String → ℕ) (maxW : ℕ)
    (hpre : ∀ s t : String, measure s ≤ measure (s ++ " " ++ t))
    (hsuf : ∀ s t : String, measure t ≤ measure (s ++ " " ++ t))
    (ws : List String) :
    ∀ (lines : List (List String)) (cur : List String),
      (∀ l ∈ lines, ∀ v ∈ l, maxW < measure v → l = [v]) →
      (∀ v ∈ cur, maxW < measure v → cur = [v]) →
      ∀ l ∈ wrapAux measure maxW lines cur ws, ∀ v ∈ l, maxW < measure v → l = [v] := by
  induction ws with
  | nil =>
    intro lines cur hlines hcur l hl
    simp only [wrapAux] at hl
    split_ifs at hl
    · exact hlines l hl
    · rcases List.mem_append.mp hl with h1 | h1
      · exact hlines l h1
      · exact (List.mem_singleton.mp h1) ▸ hcur
  | cons w ws ih =>
    intro lines cur hlines hcur l hl
    simp only [wrapAux] at hl
    split_ifs at hl with h
    · refine ih (lines ++ [cur]) [w] ?_ ?_ l hl
      · intro l2 hl2
        rcases List.mem_append.mp hl2 with h2 | h2
        · exact hlines l2 h2
        · exact (List.mem_singleton.mp h2) ▸ hcur
      · intro v hv hover
        rw [List.mem_singleton.mp hv]
    · refine ih lines (cur ++ [w]) hlines ?_ l hl
      intro v hv hover
      by_cases hc : cur = []
      · subst hc
        simp only [List.nil_append] at hv ⊢
        rw [List.mem_singleton.mp hv]
      · have hle : measure (joinWords (cur ++ [w])) ≤ maxW :=
          not_lt.mp fun hgt => h ⟨hgt, hc⟩
        rcases List.mem_append.mp hv with h2 | h2
        · have hcv : cur = [v] := hcur v h2 hover
          rw [hcv] at hle
          have hj : joinWords ([v] ++ [w]) = v ++ " " ++ w := rfl
          rw [hj] at hle
          exact absurd hover (not_lt.mpr (le_trans (hpre v w) hle))
        · have hvw : v = w := List.mem_singleton.mp h2
          subst hvw
          rw [joinWords_append_single cur v hc] at hle
          exact absurd hover (not_lt.mpr (le_trans (hsuf (joinWords cur) v) hle))

/-- C8: for any width measure that never shrinks when a line is extended
(on either side by a space and a word), the layout upper-cases the title
and greedily wraps its words so that (1) the words appear in order and none
is dropped — the emitted lines concatenate back to the word list of the
upper-cased title; (2) every emitted line of two or more words measures at
most `canvasWidth - 80 = 655`; (3) a word wider than the limit is emitted
as a line of its own, never hyphenated or dropped. -/
theorem title_wrap_correct (measure : String → ℕ)
    (hpre : ∀ s t : String, measure s ≤ measure (s ++ " " ++ t))
    (hsuf : ∀ s t : String, measure t ≤ measure (s ++ " " ++ t))
    (title : String) :
    (wrapTitle measure title).join = splitWords (strUpper title)
    ∧ (∀ line ∈ wrapTitle measure title,
        2 ≤ line.length → measure (joinWords line) ≤ maxTextWidth)
    ∧ (∀ line ∈ wrapTitle measure title, ∀ w ∈ line,
        maxTextWidth < measure w → line = [w]) := by
  refine ⟨?_, ?_, ?_⟩
  · have h := wrapAux_join measure maxTextWidth (splitWords (strUpper title)) [] []
    simpa [wrapTitle] using h
  · intro line hline
    refine wrapAux_width measure maxTextWidth _ [] []
      (fun l hl => absurd hl (List.not_mem_nil _)) ?_ line hline
    intro h2
    simp at h2
  · intro line hline
    exact wrapAux_overlong measure maxTextWidth hpre hsuf _ [] []
      (fun l hl => absurd hl (List.not_mem_nil _))
      (fun v hv => absurd hv (List.not_mem_nil _)) line hline

/-- C8 witness: the wrap properties instantiated at the character-count
measure (which satisfies both monotonicity conditions) and the repository's
example title. -/
theorem title_wrap_correct_witness :
    ((∀ s t : String, s.length ≤ (s ++ " " ++ t).length)
      ∧ (∀ s t : String, t.length ≤ (s ++ " " ++ t).length))
    ∧ ((wrapTitle String.length "EASY RECIPES FOR HEALTHY EATING TONIGHT").join
        = splitWords (strUpper "EASY RECIPES FOR HEALTHY EATING TONIGHT")
      ∧ (∀ line ∈ wrapTitle String.length "EASY RECIPES FOR HEALTHY EATING TONIGHT",
          2 ≤ line.length → String.length (joinWords line) ≤ maxTextWidth)
      ∧ (∀ line ∈ wrapTitle String.length "EASY RECIPES FOR HEALTHY EATING TONIGHT",
          ∀ w ∈ line, maxTextWidth < String.length w → line = [w])) := by
  have hone : (" " : String).length = 1 := rfl
  have hpre : ∀ s t : String, s.length ≤ (s ++ " " ++ t).length := by
    intro s t
    simp only [String.length_append, hone]
    omega
  have hsuf : ∀ s t : String, t.length ≤ (s ++ " " ++ t).length := by
    intro s t
    simp only [String.length_append, hone]
    omega
  exact ⟨⟨hpre, hsuf⟩, title_wrap_correct String.length hpre hsuf _⟩

end Design
